import Mathlib

/-!
Verification of the admin-dashboard route-editing and map components.

Shallow embedding of:
* `src/components/RouteMapEditor.tsx` — the click handler
  (`MapClickHandler`), `addWaypoint`, `removeWaypoint`, and
  `calculateDistance` (haversine sum, `toFixed(2)` formatting);
* `src/components/simple-map.tsx` — bounding-box computation and the
  `toCanvas` lat/lon → pixel projection;
* `src/unnamed/part_006` (parcours form) — `onSubmit` GeoJSON
  `LineString` encoding and `fetchParcoursData` decoding.

JavaScript numbers are IEEE doubles, all of which are rational, so
coordinates are modelled as `ℚ`; the trigonometric haversine
computation is modelled over `ℝ` with exact real functions.
-/

namespace AdminDashboard

/-- Waypoint record `{ lat, lng }` from `RouteMapEditor.tsx`. -/
structure Waypoint where
  lat : ℚ
  lng : ℚ
deriving DecidableEq, Repr

/-- Squared Euclidean distance in degree space,
`Math.pow(wp.lat - lat, 2) + Math.pow(wp.lng - lng, 2)` from the click
handler. -/
def distSq (a b : Waypoint) : ℚ :=
  (a.lat - b.lat) ^ 2 + (a.lng - b.lng) ^ 2

/-- Real-valued distance exactly as the source computes it:
`Math.sqrt(Math.pow(wp.lat - lat, 2) + Math.pow(wp.lng - lng, 2))`. -/
noncomputable def jsDistance (a b : Waypoint) : ℝ :=
  Real.sqrt ((distSq a b : ℚ) : ℝ)

/-- Click-proximity test of `MapClickHandler`: the source tests
`distance < 0.0001` with `distance = Math.sqrt(dLat² + dLng²)`.  For a
decidable definition we compare squares; `isCloseB_iff_sqrt` below proves
this equal to the source's square-root comparison. -/
def isCloseB (wp click : Waypoint) : Bool :=
  decide (distSq wp click < (1 / 10000 : ℚ) ^ 2)

/-- addWaypoint from `RouteMapEditor.tsx`:
`onChange([...waypoints, { lat, lng }])`. -/
def addWaypoint (wps : List Waypoint) (c : Waypoint) : List Waypoint :=
  wps ++ [c]

/-- removeWaypoint from `RouteMapEditor.tsx`:
`waypoints.filter((_, i) => i !== index)`, JavaScript's index-aware
`Array.prototype.filter`. -/
def removeWaypoint (wps : List Waypoint) (index : ℕ) : List Waypoint :=
  ((wps.enum).filter (fun p => p.1 ≠ index)).map Prod.snd

/-- Click handler of `MapClickHandler`: find the first waypoint within the
proximity tolerance of the click (`Array.prototype.findIndex`, which
returns -1 when nothing matches — modelled by `List.findIdx` returning
the length); remove it if found, otherwise append the click. -/
def mapClick (wps : List Waypoint) (c : Waypoint) : List Waypoint :=
  let clickedIndex := wps.findIdx (fun wp => isCloseB wp c)
  if clickedIndex < wps.length then removeWaypoint wps clickedIndex
  else addWaypoint wps c

/-- Folding a sequence of map clicks over a waypoint list. -/
def applyClicks (clicks : List Waypoint) : List Waypoint :=
  clicks.foldl mapClick []

/-- Faithfulness of the squared comparison: the boolean proximity test
agrees with the source's `Math.sqrt(...) < 0.0001`. -/
theorem isCloseB_iff_sqrt (wp click : Waypoint) :
    isCloseB wp click = true ↔ jsDistance wp click < (1 / 10000 : ℝ) := by
  rw [isCloseB, jsDistance, decide_eq_true_iff,
    Real.sqrt_lt' (by norm_num : (0 : ℝ) < 1 / 10000)]
  rw [show ((1 : ℝ) / 10000) = ((1 / 10000 : ℚ) : ℝ) by norm_num]
  exact_mod_cast Iff.rfl

/-- The second click of the C1 scenario is not within the proximity
tolerance: its squared degree distance is 2·10⁻⁸, not below 10⁻⁸. -/
theorem scenario_second_click_far :
    isCloseB ⟨48.8566, 2.3522⟩ ⟨48.8567, 2.3523⟩ = false := by
  simp only [isCloseB, distSq, decide_eq_false_iff_not, not_lt]
  norm_num

/-- A click at (48.85665, 2.3522) is within tolerance of (48.8566, 2.3522):
its squared degree distance is 25·10⁻¹⁰ < 10⁻⁸. -/
theorem scenario_third_click_near :
    isCloseB ⟨48.8566, 2.3522⟩ ⟨48.85665, 2.3522⟩ = true := by
  simp only [isCloseB, distSq, decide_eq_true_eq]
  norm_num

/-- C1: the first click on an empty list appends the point; the second
click of the scenario lies at degree-space distance √2·10⁻⁴ ≥ 10⁻⁴ from
it, so it is appended as well — the list does not become empty. -/
theorem mapClick_scenario_counterexample :
    mapClick (mapClick [] ⟨48.8566, 2.3522⟩) ⟨48.8567, 2.3523⟩ =
      [⟨48.8566, 2.3522⟩, ⟨48.8567, 2.3523⟩] ∧
    mapClick (mapClick [] ⟨48.8566, 2.3522⟩) ⟨48.8567, 2.3523⟩ ≠ [] := by
  have h1 : mapClick [] ⟨48.8566, 2.3522⟩ = [⟨48.8566, 2.3522⟩] := by
    simp [mapClick, addWaypoint]
  have h2 : mapClick [⟨48.8566, 2.3522⟩] ⟨48.8567, 2.3523⟩ =
      [⟨48.8566, 2.3522⟩, ⟨48.8567, 2.3523⟩] := by
    simp [mapClick, addWaypoint, List.findIdx_cons,
      scenario_second_click_far]
  rw [h1, h2]
  exact ⟨rfl, by simp⟩

/-- C1 (amended): starting from the empty list, a click at
(48.8566, 2.3522) yields a one-point list; the scenario's second click at
(48.8567, 2.3523) is NOT within the strict 0.0001-degree tolerance
(its degree distance is √2·10⁻⁴), so it is appended, giving a two-point
list; a click genuinely within tolerance, e.g. (48.85665, 2.3522) at
distance 5·10⁻⁵, removes the existing waypoint and empties the list. -/
theorem mapClick_scenario :
    mapClick [] ⟨48.8566, 2.3522⟩ = [⟨48.8566, 2.3522⟩] ∧
    mapClick [⟨48.8566, 2.3522⟩] ⟨48.8567, 2.3523⟩ =
      [⟨48.8566, 2.3522⟩, ⟨48.8567, 2.3523⟩] ∧
    mapClick [⟨48.8566, 2.3522⟩] ⟨48.85665, 2.3522⟩ = [] := by
  refine ⟨by simp [mapClick, addWaypoint], ?_, ?_⟩
  · simp [mapClick, addWaypoint, List.findIdx_cons, scenario_second_click_far]
  · simp [mapClick, List.findIdx_cons, scenario_third_click_near,
      removeWaypoint]

/-- JavaScript's index-aware filter with predicate `i !== index`, acting on
an enumeration that starts at `n`, deletes exactly the entry at absolute
position `n + k`. -/
theorem enumFrom_filter_ne_map_snd (l : List Waypoint) :
    ∀ (n k : ℕ),
      (((l.enumFrom n).filter (fun p => p.1 ≠ n + k)).map Prod.snd) =
        l.eraseIdx k := by
  induction l with
  | nil => intro n k; simp
  | cons a l ih =>
    intro n k
    cases k with
    | zero =>
      have hkeep : (l.enumFrom (n + 1)).filter (fun p => !decide (p.1 = n)) =
          l.enumFrom (n + 1) := by
        rw [List.filter_eq_self]
        intro x hx
        have := List.le_fst_of_mem_enumFrom hx
        simp only [Bool.not_eq_true', decide_eq_false_iff_not]
        omega
      simp [List.enumFrom_cons, List.filter_cons, hkeep,
        List.enumFrom_map_snd]
    | succ k =>
      have hne : ((n ≠ n + (k + 1)) : Prop) := by omega
      have harith : n + (k + 1) = (n + 1) + k := by omega
      simp only [List.enumFrom_cons, List.filter_cons, decide_eq_true_eq,
        hne, if_true, decide_not]
      simp only [harith, List.eraseIdx_cons_succ, List.map_cons]
      rw [← ih (n + 1) k]
      simp [List.filter]

/-- removeWaypoint deletes exactly the entry at the given index and keeps
the order of the others: it equals `List.eraseIdx`. -/
theorem removeWaypoint_eq_eraseIdx (wps : List Waypoint) (k : ℕ) :
    removeWaypoint wps k = wps.eraseIdx k := by
  have := enumFrom_filter_ne_map_snd wps 0 k
  simpa [removeWaypoint, List.enum] using this

/-- C7: when at least two waypoints are within the click tolerance, the
click handler removes exactly the first match in list order — the result
is the prefix before it followed by the suffix after it, so earlier
indices are unchanged and later ones shift down by one. -/
theorem mapClick_removes_first_match (wps : List Waypoint) (c : Waypoint)
    (i j : ℕ) (hij : i < j) (hj : j < wps.length)
    (hi : isCloseB (wps.get ⟨i, hij.trans hj⟩) c = true)
    (hjc : isCloseB (wps.get ⟨j, hj⟩) c = true) :
    ∃ k, ∃ hk : k < wps.length,
      isCloseB (wps.get ⟨k, hk⟩) c = true ∧
      (∀ m v, m < k → wps[m]? = some v → isCloseB v c = false) ∧
      mapClick wps c = wps.take k ++ wps.drop (k + 1) := by
  have hex : ∃ x ∈ wps, isCloseB x c = true :=
    ⟨wps.get ⟨i, hij.trans hj⟩, List.get_mem _ _ _, hi⟩
  have hk : wps.findIdx (fun wp => isCloseB wp c) < wps.length :=
    List.findIdx_lt_length_of_exists hex
  refine ⟨wps.findIdx (fun wp => isCloseB wp c), hk, ?_, ?_, ?_⟩
  · simpa using List.findIdx_getElem (w := hk)
  · intro m v hm hv
    have hmlen : m < wps.length := hm.trans hk
    have hvm : v = wps[m] := by
      rw [List.getElem?_eq_getElem hmlen] at hv
      exact (Option.some_injective _ hv).symm
    subst hvm
    simpa using List.not_of_lt_findIdx hm
  · rw [mapClick]
    simp only [hk, if_true]
    rw [removeWaypoint_eq_eraseIdx, List.eraseIdx_eq_take_drop_succ]

/-- Witness for C7 at a concrete ambiguous click: both stored waypoints
are within tolerance of the click at the origin. -/
theorem mapClick_removes_first_match_witness :
    ∃ k, ∃ hk : k < ([⟨0.00005, 0⟩, ⟨0, 0.00005⟩] : List Waypoint).length,
      isCloseB (([⟨0.00005, 0⟩, ⟨0, 0.00005⟩] : List Waypoint).get ⟨k, hk⟩)
        ⟨0, 0⟩ = true ∧
      (∀ m v, m < k →
        ([⟨0.00005, 0⟩, ⟨0, 0.00005⟩] : List Waypoint)[m]? = some v →
        isCloseB v ⟨0, 0⟩ = false) ∧
      mapClick [⟨0.00005, 0⟩, ⟨0, 0.00005⟩] ⟨0, 0⟩ =
        ([⟨0.00005, 0⟩, ⟨0, 0.00005⟩] : List Waypoint).take k ++
          ([⟨0.00005, 0⟩, ⟨0, 0.00005⟩] : List Waypoint).drop (k + 1) := by
  refine mapClick_removes_first_match _ _ 0 1 (by norm_num) (by norm_num) ?_ ?_
  · simp only [List.get, isCloseB, distSq, decide_eq_true_eq]
    norm_num
  · simp only [List.get, isCloseB, distSq, decide_eq_true_eq]
    norm_num

/-- Two waypoints are separated when their squared degree distance is at
least the squared click tolerance. -/
def Separated (a b : Waypoint) : Prop :=
  (1 / 10000 : ℚ) ^ 2 ≤ distSq a b

/-- Separation in squared rational form coincides with the real Euclidean
distance being at least the tolerance. -/
theorem separated_iff_dist (a b : Waypoint) :
    Separated a b ↔ (1 / 10000 : ℝ) ≤ jsDistance a b := by
  have h0 : (0 : ℚ) ≤ distSq a b := by
    rw [distSq]; positivity
  rw [jsDistance, Real.le_sqrt (by norm_num) (by exact_mod_cast h0),
    Separated]
  rw [show ((1 : ℝ) / 10000) ^ 2 = (((1 / 10000 : ℚ) ^ 2 : ℚ) : ℝ) by
    push_cast; norm_num]
  exact_mod_cast Iff.rfl

/-- Failing the proximity test is exactly being separated. -/
theorem not_close_iff_separated (a b : Waypoint) :
    isCloseB a b = false ↔ Separated a b := by
  rw [isCloseB, decide_eq_false_iff_not, not_lt, Separated]

/-- When the click handler appends (rather than removes), no stored
waypoint passed the proximity test against the click. -/
theorem mapClick_eq_append_far (wps : List Waypoint) (c : Waypoint)
    (h : mapClick wps c = addWaypoint wps c) :
    ∀ w ∈ wps, isCloseB w c = false := by
  by_cases hlt : wps.findIdx (fun wp => isCloseB wp c) < wps.length
  · exfalso
    have hres : mapClick wps c =
        removeWaypoint wps (wps.findIdx (fun wp => isCloseB wp c)) := by
      simp [mapClick, hlt]
    have hlen1 : (mapClick wps c).length = wps.length - 1 := by
      rw [hres, removeWaypoint_eq_eraseIdx, List.length_eraseIdx, if_pos hlt]
    have hlen2 : (mapClick wps c).length = wps.length + 1 := by
      rw [h, addWaypoint]; simp
    omega
  · have heq : wps.findIdx (fun wp => isCloseB wp c) = wps.length :=
      le_antisymm (List.findIdx_le_length _) (not_lt.mp hlt)
    exact List.findIdx_eq_length.mp heq

/-- One click preserves pairwise separation of the waypoint list. -/
theorem mapClick_preserves_separated (wps : List Waypoint) (c : Waypoint)
    (h : wps.Pairwise Separated) : (mapClick wps c).Pairwise Separated := by
  by_cases hlt : wps.findIdx (fun wp => isCloseB wp c) < wps.length
  · have hres : mapClick wps c =
        removeWaypoint wps (wps.findIdx (fun wp => isCloseB wp c)) := by
      simp [mapClick, hlt]
    rw [hres, removeWaypoint_eq_eraseIdx]
    exact List.Pairwise.sublist (List.eraseIdx_sublist _ _) h
  · have hres : mapClick wps c = addWaypoint wps c := by
      simp [mapClick, hlt]
    have hfar := mapClick_eq_append_far wps c hres
    rw [hres, addWaypoint, List.pairwise_append]
    refine ⟨h, List.pairwise_singleton _ _, ?_⟩
    intro a ha b hb
    rw [List.mem_singleton] at hb
    subst hb
    exact (not_close_iff_separated a b).mp (hfar a ha)

/-- Any click sequence applied to a pairwise-separated list leaves it
pairwise separated. -/
theorem foldl_mapClick_separated (clicks : List Waypoint) :
    ∀ wps : List Waypoint, wps.Pairwise Separated →
      (clicks.foldl mapClick wps).Pairwise Separated := by
  induction clicks with
  | nil => intro wps h; simpa using h
  | cons c clicks ih =>
    intro wps h
    rw [List.foldl_cons]
    exact ih _ (mapClick_preserves_separated wps c h)

/-- C8: starting from the empty list, after any sequence of clicks every
pair of stored waypoints is at Euclidean degree distance at least 0.0001,
and a click is appended only when every stored waypoint is at distance at
least 0.0001 from it. -/
theorem minimum_separation_invariant :
    (∀ clicks : List Waypoint,
      (applyClicks clicks).Pairwise
        (fun a b => (1 / 10000 : ℝ) ≤ jsDistance a b)) ∧
    (∀ wps c, mapClick wps c = addWaypoint wps c →
      ∀ w ∈ wps, (1 / 10000 : ℝ) ≤ jsDistance w c) := by
  constructor
  · intro clicks
    have h := foldl_mapClick_separated clicks [] (List.Pairwise.nil)
    exact h.imp (fun hab => (separated_iff_dist _ _).mp hab)
  · intro wps c h w hw
    exact (separated_iff_dist w c).mp
      ((not_close_iff_separated w c).mp (mapClick_eq_append_far wps c h w hw))

/-- Witness for C8's append clause at a concrete far click. -/
theorem minimum_separation_invariant_witness :
    mapClick [⟨0, 0⟩] ⟨1, 1⟩ = addWaypoint [⟨0, 0⟩] ⟨1, 1⟩ ∧
    (1 / 10000 : ℝ) ≤ jsDistance ⟨0, 0⟩ ⟨1, 1⟩ := by
  have hfar : isCloseB ⟨0, 0⟩ ⟨1, 1⟩ = false := by
    simp only [isCloseB, distSq, decide_eq_false_iff_not, not_lt]
    norm_num
  have h : mapClick [⟨0, 0⟩] ⟨1, 1⟩ = addWaypoint [⟨0, 0⟩] ⟨1, 1⟩ := by
    simp [mapClick, addWaypoint, List.findIdx_cons, hfar]
  exact ⟨h, minimum_separation_invariant.2 _ _ h ⟨0, 0⟩
    (List.mem_cons_self _ _)⟩

/-- Point record `{ lat, lon }` of `simple-map.tsx`. -/
structure GeoPoint where
  lat : ℚ
  lon : ℚ
deriving DecidableEq, Repr

/-- Bounding box computed in `simple-map.tsx` from the displayed points. -/
structure Bounds where
  minLat : ℚ
  maxLat : ℚ
  minLon : ℚ
  maxLon : ℚ
deriving DecidableEq, Repr

/-- Math.min over a spread of a nonempty list of values. -/
def listMin (x : ℚ) (xs : List ℚ) : ℚ := xs.foldl min x

/-- Math.max over a spread of a nonempty list of values. -/
def listMax (x : ℚ) (xs : List ℚ) : ℚ := xs.foldl max x

/-- Bounds of a nonempty point list (`allPoints` is nonempty at this spot
in the source, guarded by the `allPoints.length === 0` early return). -/
def computeBounds (p : GeoPoint) (rest : List GeoPoint) : Bounds :=
  { minLat := listMin p.lat (rest.map GeoPoint.lat)
    maxLat := listMax p.lat (rest.map GeoPoint.lat)
    minLon := listMin p.lon (rest.map GeoPoint.lon)
    maxLon := listMax p.lon (rest.map GeoPoint.lon) }

/-- JavaScript `||` fallback `maxLat - minLat || 0.01`: a zero range is
replaced by 0.01 degrees. -/
def orDefault (q : ℚ) : ℚ := if q = 0 then 1 / 100 else q

/-- Padding fraction of `simple-map.tsx`. -/
def padding : ℚ := 1 / 10

/-- Membership of a point in a bounding box. -/
def inBounds (b : Bounds) (p : GeoPoint) : Prop :=
  b.minLat ≤ p.lat ∧ p.lat ≤ b.maxLat ∧ b.minLon ≤ p.lon ∧ p.lon ≤ b.maxLon

/-- Projection `toCanvas` of `simple-map.tsx`.  The JavaScript computes
the two quotients unconditionally; the result is non-finite (NaN or
±Infinity) exactly when a divisor is zero, which the `Option` models as
`none`. -/
def toCanvas (b : Bounds) (W H : ℚ) (lat lon : ℚ) : Option (ℚ × ℚ) :=
  let latRange := orDefault (b.maxLat - b.minLat)
  let lonRange := orDefault (b.maxLon - b.minLon)
  if lonRange * (1 + 2 * padding) = 0 ∨ latRange * (1 + 2 * padding) = 0 then
    none
  else
    some ((lon - b.minLon + padding * lonRange) /
            (lonRange * (1 + 2 * padding)) * W,
          H - (lat - b.minLat + padding * latRange) /
            (latRange * (1 + 2 * padding)) * H)

/-- Core estimate: a coordinate between the box minimum and maximum maps
to a fraction between 1/12 and 11/12 of the padded range — in particular
into [0, 1] — and the (possibly substituted) range is positive. -/
theorem frac_bounds (m M v : ℚ) (h1 : m ≤ v) (h2 : v ≤ M) :
    0 < orDefault (M - m) ∧
    0 ≤ (v - m + padding * orDefault (M - m)) /
        (orDefault (M - m) * (1 + 2 * padding)) ∧
    (v - m + padding * orDefault (M - m)) /
        (orDefault (M - m) * (1 + 2 * padding)) ≤ 1 := by
  have hr0 : 0 < orDefault (M - m) := by
    rw [orDefault]
    by_cases hz : M - m = 0
    · rw [if_pos hz]; norm_num
    · rw [if_neg hz]
      have : 0 ≤ M - m := by linarith
      exact lt_of_le_of_ne this (Ne.symm hz)
  have hvm : v - m ≤ orDefault (M - m) := by
    rw [orDefault]
    by_cases hz : M - m = 0
    · rw [if_pos hz]; nlinarith
    · rw [if_neg hz]; linarith
  refine ⟨hr0, ?_, ?_⟩
  · apply div_nonneg
    · rw [padding]; nlinarith
    · rw [padding]; nlinarith
  · rw [div_le_one (by rw [padding]; nlinarith)]
    rw [padding] at *
    nlinarith

/-- All in-box points project into the canvas rectangle. -/
theorem toCanvas_mem_rect (b : Bounds) (p : GeoPoint) (W H : ℚ)
    (hW : 0 < W) (hH : 0 < H) (hp : inBounds b p) :
    ∃ x y, toCanvas b W H p.lat p.lon = some (x, y) ∧
      0 ≤ x ∧ x ≤ W ∧ 0 ≤ y ∧ y ≤ H := by
  obtain ⟨hlat1, hlat2, hlon1, hlon2⟩ := hp
  obtain ⟨hrLon, hfLon0, hfLon1⟩ :=
    frac_bounds b.minLon b.maxLon p.lon hlon1 hlon2
  obtain ⟨hrLat, hfLat0, hfLat1⟩ :=
    frac_bounds b.minLat b.maxLat p.lat hlat1 hlat2
  have hdLon : orDefault (b.maxLon - b.minLon) * (1 + 2 * padding) ≠ 0 := by
    rw [padding]; positivity
  have hdLat : orDefault (b.maxLat - b.minLat) * (1 + 2 * padding) ≠ 0 := by
    rw [padding]; positivity
  have heq : toCanvas b W H p.lat p.lon =
      some ((p.lon - b.minLon + padding * orDefault (b.maxLon - b.minLon)) /
              (orDefault (b.maxLon - b.minLon) * (1 + 2 * padding)) * W,
            H - (p.lat - b.minLat +
                padding * orDefault (b.maxLat - b.minLat)) /
              (orDefault (b.maxLat - b.minLat) * (1 + 2 * padding)) * H) := by
    rw [toCanvas]
    simp only [hdLon, hdLat, or_self, if_false]
  refine ⟨_, _, heq, ?_, ?_, ?_, ?_⟩
  · exact mul_nonneg hfLon0 hW.le
  · calc (p.lon - b.minLon + padding * orDefault (b.maxLon - b.minLon)) /
        (orDefault (b.maxLon - b.minLon) * (1 + 2 * padding)) * W
        ≤ 1 * W := by
          apply mul_le_mul_of_nonneg_right hfLon1 hW.le
      _ = W := one_mul W
  · have : (p.lat - b.minLat + padding * orDefault (b.maxLat - b.minLat)) /
        (orDefault (b.maxLat - b.minLat) * (1 + 2 * padding)) * H ≤ H := by
      calc _ ≤ 1 * H := mul_le_mul_of_nonneg_right hfLat1 hH.le
        _ = H := one_mul H
    linarith
  · have : 0 ≤ (p.lat - b.minLat +
        padding * orDefault (b.maxLat - b.minLat)) /
        (orDefault (b.maxLat - b.minLat) * (1 + 2 * padding)) * H :=
      mul_nonneg hfLat0 hH.le
    linarith

/-- C5: every point inside the computed bounding box projects to pixel
coordinates with 0 ≤ x ≤ W and 0 ≤ y ≤ H, for any positive canvas size,
including the degenerate substituted-range case. -/
theorem toCanvas_containment (p0 : GeoPoint) (rest : List GeoPoint)
    (p : GeoPoint) (W H : ℚ) (hW : 0 < W) (hH : 0 < H)
    (hp : inBounds (computeBounds p0 rest) p) :
    ∃ x y, toCanvas (computeBounds p0 rest) W H p.lat p.lon = some (x, y) ∧
      0 ≤ x ∧ x ≤ W ∧ 0 ≤ y ∧ y ≤ H :=
  toCanvas_mem_rect (computeBounds p0 rest) p W H hW hH hp

/-- Witness for C5: a concrete point inside the box of two concrete
points, on a 600 × 600 canvas. -/
theorem toCanvas_containment_witness :
    ∃ x y, toCanvas (computeBounds ⟨48, 2⟩ [⟨49, 3⟩]) 600 600
        (⟨48.5, 2.5⟩ : GeoPoint).lat (⟨48.5, 2.5⟩ : GeoPoint).lon =
        some (x, y) ∧
      0 ≤ x ∧ x ≤ 600 ∧ 0 ≤ y ∧ y ≤ 600 := by
  refine toCanvas_containment ⟨48, 2⟩ [⟨49, 3⟩] ⟨48.5, 2.5⟩ 600 600
    (by norm_num) (by norm_num) ?_
  refine ⟨?_, ?_, ?_, ?_⟩ <;>
    · simp only [computeBounds, listMin, listMax, List.map, List.foldl]
      norm_num

/-- Projection of the degenerate bounding box of a single repeated point:
both ranges are substituted by 0.01, and the point itself (sitting at the
box minimum) lands at exactly (W/12, H − H/12). -/
theorem toCanvas_repeated (p : GeoPoint) (W H : ℚ) :
    toCanvas (computeBounds p [p, p]) W H p.lat p.lon =
      some (W / 12, H - H / 12) := by
  have hb : computeBounds p [p, p] =
      { minLat := p.lat, maxLat := p.lat, minLon := p.lon,
        maxLon := p.lon } := by
    simp [computeBounds, listMin, listMax, List.foldl]
  rw [hb, toCanvas]
  simp only [sub_self, orDefault, if_pos rfl, padding]
  norm_num
  constructor <;> ring

/-- C3 (amended): projecting the degenerate point set of one point
repeated three times is finite — the 0.01 substituted range keeps the
divisor nonzero — but the pixel lands at (W/12, 11·H/12), one padding
unit from the lower-left corner of the canvas, not near its center. -/
theorem toCanvas_degenerate (p : GeoPoint) (W H : ℚ) :
    (toCanvas (computeBounds p [p, p]) W H p.lat p.lon).isSome = true ∧
    toCanvas (computeBounds p [p, p]) W H p.lat p.lon =
      some (W / 12, H - H / 12) := by
  refine ⟨?_, toCanvas_repeated p W H⟩
  rw [toCanvas_repeated p W H]
  rfl

/-- C3 counterexample: for the repeated point (48.85, 2.35) on a
600 × 600 canvas the projection is (50, 550).  The canvas center is
(300, 300); reading "near the center" generously as within a quarter of
the canvas size of it, (50, 550) is not near the center. -/
theorem toCanvas_degenerate_not_center :
    toCanvas (computeBounds ⟨48.85, 2.35⟩ [⟨48.85, 2.35⟩, ⟨48.85, 2.35⟩])
        600 600 (⟨48.85, 2.35⟩ : GeoPoint).lat
        (⟨48.85, 2.35⟩ : GeoPoint).lon = some (50, 550) ∧
    ¬(|(50 : ℚ) - 300| ≤ 150 ∧ |(550 : ℚ) - 300| ≤ 150) := by
  constructor
  · rw [toCanvas_repeated]
    norm_num
  · rw [abs_le, abs_le]
    intro h
    obtain ⟨⟨h1, _⟩, _⟩ := h
    norm_num at h1

/-- JSON values, as needed by the parcours form's GeoJSON payload.
`JSON.stringify` followed by `JSON.parse` is the identity on such values
(ECMA-262 serializes doubles so that parsing restores them exactly), so
the encode/decode pipeline is modelled at the value level. -/
inductive JVal where
  | num (q : ℚ)
  | str (s : String)
  | arr (elems : List JVal)
  | obj (fields : List (String × JVal))

/-- Property access `j.key` on a parsed JSON value: `undefined` (modelled
as `none`) unless `j` is an object with the field. -/
def jget (j : JVal) (key : String) : Option JVal :=
  match j with
  | .obj fields => (fields.find? (fun f => f.1 == key)).map Prod.snd
  | _ => none

/-- GeoJSON encoding from `onSubmit` in the parcours form:
`{ type: "LineString", coordinates: waypoints.map(wp => [wp.lng, wp.lat]) }`
— longitude first, input order preserved. -/
def encodeLineString (wps : List Waypoint) : JVal :=
  .obj [("type", .str "LineString"),
        ("coordinates",
          .arr (wps.map (fun wp => JVal.arr [.num wp.lng, .num wp.lat])))]

/-- Decoding one coordinate from `fetchParcoursData`:
`(coord) => ({ lng: coord[0], lat: coord[1] })`; a coordinate that is not
an array of at least two numbers would produce undefined fields, modelled
as `none`. -/
def decodeCoord (j : JVal) : Option Waypoint :=
  match j with
  | .arr (JVal.num a :: JVal.num b :: _) => some ⟨b, a⟩
  | _ => none

/-- Decoding from `fetchParcoursData`: requires
`geoJson.type === "LineString" && geoJson.coordinates` (an array field —
any array, including the empty one, is truthy), then maps `decodeCoord`
over the coordinates. -/
def decodeLineString (j : JVal) : Option (List Waypoint) :=
  match jget j "type", jget j "coordinates" with
  | some (.str t), some (.arr coords) =>
      if t = "LineString" then coords.mapM decodeCoord else none
  | _, _ => none

/-- Decoding inverts the per-point encoding. -/
theorem mapM_decodeCoord (wps : List Waypoint) :
    (wps.map (fun wp => JVal.arr [.num wp.lng, .num wp.lat])).mapM
      decodeCoord = some wps := by
  induction wps with
  | nil => rfl
  | cons w l ih =>
    rw [List.map_cons, List.mapM_cons, ih]
    rfl

/-- C4: decoding the encoded LineString returns exactly the original
waypoint list, for every list of points in geographic range (the range
hypothesis is not even needed: the round trip is exact for all rational
coordinates). -/
theorem decode_encode_roundtrip (wps : List Waypoint)
    (h : ∀ w ∈ wps,
      -90 ≤ w.lat ∧ w.lat ≤ 90 ∧ -180 ≤ w.lng ∧ w.lng ≤ 180) :
    decodeLineString (encodeLineString wps) = some wps := by
  have h1 : jget (encodeLineString wps) "type" =
      some (.str "LineString") := rfl
  have h2 : jget (encodeLineString wps) "coordinates" =
      some (.arr (wps.map (fun wp => JVal.arr [.num wp.lng, .num wp.lat]))) :=
    rfl
  rw [decodeLineString, h1, h2]
  simp only [if_pos rfl]
  exact mapM_decodeCoord wps

/-- Witness for C4 at a concrete two-point list. -/
theorem decode_encode_roundtrip_witness :
    decodeLineString (encodeLineString [⟨48.8566, 2.3522⟩, ⟨45, 5⟩]) =
      some [⟨48.8566, 2.3522⟩, ⟨45, 5⟩] := by
  refine decode_encode_roundtrip _ ?_
  intro w hw
  rw [List.mem_cons, List.mem_singleton] at hw
  rcases hw with hw | hw <;> subst hw <;> refine ⟨?_, ?_, ?_, ?_⟩ <;>
    norm_num

/-- C6: encoding the two-point list yields the expected LineString object,
longitude first, in input order. -/
theorem encode_scenario :
    encodeLineString [⟨1, 2⟩, ⟨3, 4⟩] =
      .obj [("type", .str "LineString"),
            ("coordinates",
              .arr [.arr [.num 2, .num 1], .arr [.num 4, .num 3]])] := rfl

/-- Payload assembled by `onSubmit` of the parcours form (the fields the
claims are about). -/
structure ParcoursPayload where
  startingPointLat : ℚ
  startingPointLon : ℚ
  endPointLat : ℚ
  endPointLon : ℚ
  geoJsonPath : JVal

/-- Save handler `onSubmit`: an empty waypoint list shows an error toast
and does not build a payload (`none`); otherwise the payload takes its
start from `waypoints[0]`, its end from `waypoints[waypoints.length - 1]`,
and the stringified LineString. -/
def onSubmitPayload (wps : List Waypoint) : Option ParcoursPayload :=
  match wps with
  | [] => none
  | w :: rest =>
      some { startingPointLat := w.lat
             startingPointLon := w.lng
             endPointLat := ((w :: rest).getLast (List.cons_ne_nil w rest)).lat
             endPointLon := ((w :: rest).getLast (List.cons_ne_nil w rest)).lng
             geoJsonPath := encodeLineString (w :: rest) }

/-- C10: for a non-empty waypoint list the persisted start point is the
first waypoint, the end point is the last, and the GeoJSON path is the
LineString encoding of the full list (one coordinate pair per waypoint);
for a single-waypoint list, start equals end and there is exactly one
coordinate pair. -/
theorem onSubmit_start_end (wps : List Waypoint) (h : wps ≠ []) :
    ∃ pay, onSubmitPayload wps = some pay ∧
      pay.startingPointLat = (wps.head h).lat ∧
      pay.startingPointLon = (wps.head h).lng ∧
      pay.endPointLat = (wps.getLast h).lat ∧
      pay.endPointLon = (wps.getLast h).lng ∧
      pay.geoJsonPath = encodeLineString wps ∧
      (∃ coords, jget pay.geoJsonPath "coordinates" = some (.arr coords) ∧
        coords.length = wps.length) ∧
      (wps.length = 1 →
        pay.startingPointLat = pay.endPointLat ∧
        pay.startingPointLon = pay.endPointLon) := by
  match wps with
  | [] => exact absurd rfl h
  | w :: rest =>
    refine ⟨_, rfl, rfl, rfl, rfl, rfl, rfl, ?_, ?_⟩
    · exact ⟨_, rfl, by simp⟩
    · intro hlen
      have hrest : rest = [] := by
        simpa using hlen
      subst hrest
      exact ⟨rfl, rfl⟩

/-- Witness for C10 at a concrete single-waypoint list. -/
theorem onSubmit_start_end_witness :
    ∃ pay, onSubmitPayload [⟨5, 6⟩] = some pay ∧
      pay.startingPointLat = (([⟨5, 6⟩] : List Waypoint).head (by simp)).lat ∧
      pay.startingPointLon = (([⟨5, 6⟩] : List Waypoint).head (by simp)).lng ∧
      pay.endPointLat = (([⟨5, 6⟩] : List Waypoint).getLast (by simp)).lat ∧
      pay.endPointLon = (([⟨5, 6⟩] : List Waypoint).getLast (by simp)).lng ∧
      pay.geoJsonPath = encodeLineString [⟨5, 6⟩] ∧
      (∃ coords, jget pay.geoJsonPath "coordinates" = some (.arr coords) ∧
        coords.length = ([⟨5, 6⟩] : List Waypoint).length) ∧
      (([⟨5, 6⟩] : List Waypoint).length = 1 →
        pay.startingPointLat = pay.endPointLat ∧
        pay.startingPointLon = pay.endPointLon) :=
  onSubmit_start_end [⟨5, 6⟩] (by simp)

/-- JavaScript's `Math.atan2` on finite arguments. -/
noncomputable def atan2 (y x : ℝ) : ℝ :=
  if 0 < x then Real.arctan (y / x)
  else if x < 0 then
    (if 0 ≤ y then Real.arctan (y / x) + Real.pi
     else Real.arctan (y / x) - Real.pi)
  else
    (if 0 < y then Real.pi / 2
     else if y < 0 then -(Real.pi / 2)
     else 0)

/-- Haversine distance of one segment, exactly as in the loop body of
`calculateDistance` (Earth radius 6371 km). -/
noncomputable def haversineKm (p1 p2 : Waypoint) : ℝ :=
  let R : ℝ := 6371
  let dLat : ℝ := ((p2.lat - p1.lat : ℚ) : ℝ) * Real.pi / 180
  let dLng : ℝ := ((p2.lng - p1.lng : ℚ) : ℝ) * Real.pi / 180
  let a : ℝ :=
    Real.sin (dLat / 2) * Real.sin (dLat / 2) +
      Real.cos ((p1.lat : ℝ) * Real.pi / 180) *
        Real.cos ((p2.lat : ℝ) * Real.pi / 180) *
        Real.sin (dLng / 2) * Real.sin (dLng / 2)
  let c : ℝ := 2 * atan2 (Real.sqrt a) (Real.sqrt (1 - a))
  R * c

/-- Running total of the `for` loop in `calculateDistance`: the sum of
`haversineKm` over indices 0 … length − 2. -/
noncomputable def totalDistanceRaw : List Waypoint → ℝ
  | [] => 0
  | [_] => 0
  | p1 :: p2 :: rest => haversineKm p1 p2 + totalDistanceRaw (p2 :: rest)

/-- Sum of haversine distances over consecutive pairs, the form used by
the spec's additivity statement. -/
noncomputable def consecutivePairSum (wps : List Waypoint) : ℝ :=
  ((wps.zip wps.tail).map (fun p => haversineKm p.1 p.2)).sum

/-- Value returned by `calculateDistance`: JavaScript's
`number | string` union.  The produced string (from `toFixed(2)`) is
modelled by its numeric content; which branch produced the value is
tracked by the constructor. -/
inductive DistResult where
  | num (value : ℝ)
  | str (value : ℝ)

/-- Whether the returned value is a JavaScript number. -/
def DistResult.isNum : DistResult → Bool
  | .num _ => true
  | .str _ => false

/-- Numeric content of `Number.prototype.toFixed(2)`: ECMA-262 picks the
integer n minimizing |n / 10² − x|, the larger n on ties, i.e.
⌊100·x + 1/2⌋ / 100. -/
noncomputable def toFixed2 (x : ℝ) : ℝ := (⌊x * 100 + 1 / 2⌋ : ℤ) / 100

/-- calculateDistance from `RouteMapEditor.tsx`: the number 0 for fewer
than two waypoints, otherwise the string
`Number(totalDistance).toFixed(2)`. -/
noncomputable def calculateDistance (wps : List Waypoint) : DistResult :=
  if wps.length < 2 then .num 0
  else .str (toFixed2 (totalDistanceRaw wps))

/-- The loop total equals the sum over consecutive pairs. -/
theorem totalDistanceRaw_eq_pairSum (wps : List Waypoint) :
    totalDistanceRaw wps = consecutivePairSum wps := by
  induction wps with
  | nil => rfl
  | cons a l ih =>
    cases l with
    | nil => rfl
    | cons b rest =>
      have hstep : totalDistanceRaw (a :: b :: rest) =
          haversineKm a b + totalDistanceRaw (b :: rest) := rfl
      rw [hstep, ih, consecutivePairSum, consecutivePairSum,
        List.tail_cons, List.tail_cons, List.zip_cons_cons,
        List.map_cons, List.sum_cons]

/-- C2 counterexample: for three waypoints `calculateDistance` does not
return a number at all — it takes the `toFixed(2)` branch and returns a
string. -/
theorem calculateDistance_not_number :
    (calculateDistance [⟨48, 2⟩, ⟨49, 3⟩, ⟨50, 4⟩]).isNum = false := by
  rw [calculateDistance, if_neg (by norm_num)]
  rfl

/-- C2 (amended): the raw loop total is exactly additive — for three
waypoints it is haversine(A,B) + haversine(B,C), and in general it is the
sum of haversine distances over consecutive pairs — but for two or more
waypoints `calculateDistance` returns that total as a `toFixed(2)` string
rather than a number; zero or one waypoint yields the number 0. -/
theorem calculateDistance_spec :
    (∀ A B C : Waypoint,
      totalDistanceRaw [A, B, C] = haversineKm A B + haversineKm B C) ∧
    (∀ wps : List Waypoint, 2 ≤ wps.length →
      calculateDistance wps =
        DistResult.str (toFixed2 (totalDistanceRaw wps)) ∧
      totalDistanceRaw wps = consecutivePairSum wps) ∧
    (∀ wps : List Waypoint, wps.length ≤ 1 →
      calculateDistance wps = DistResult.num 0) := by
  refine ⟨?_, ?_, ?_⟩
  · intro A B C
    show haversineKm A B + (haversineKm B C + 0) = _
    ring
  · intro wps hlen
    exact ⟨by rw [calculateDistance, if_neg (by omega)],
      totalDistanceRaw_eq_pairSum wps⟩
  · intro wps hlen
    rw [calculateDistance, if_pos (by omega)]

/-- Witness for C2's amended statement at concrete lists. -/
theorem calculateDistance_spec_witness :
    totalDistanceRaw [⟨0, 0⟩, ⟨0, 1⟩, ⟨1, 1⟩] =
      haversineKm ⟨0, 0⟩ ⟨0, 1⟩ + haversineKm ⟨0, 1⟩ ⟨1, 1⟩ ∧
    calculateDistance [⟨0, 0⟩, ⟨0, 1⟩, ⟨1, 1⟩] =
      DistResult.str (toFixed2 (totalDistanceRaw [⟨0, 0⟩, ⟨0, 1⟩, ⟨1, 1⟩])) ∧
    calculateDistance [⟨3, 4⟩] = DistResult.num 0 :=
  ⟨calculateDistance_spec.1 ⟨0, 0⟩ ⟨0, 1⟩ ⟨1, 1⟩,
   (calculateDistance_spec.2.1 [⟨0, 0⟩, ⟨0, 1⟩, ⟨1, 1⟩] (by norm_num)).1,
   calculateDistance_spec.2.2 [⟨3, 4⟩] (by norm_num)⟩

/-- C9: with two or more waypoints the result is the string produced by
`toFixed(2)` of the haversine running total — never a number — and the
two-decimal rounding moves any real by at most 0.005; with zero or one
waypoint the result is the number 0. -/
theorem calculateDistance_formatting :
    (∀ wps : List Waypoint, 2 ≤ wps.length →
      calculateDistance wps =
        DistResult.str (toFixed2 (totalDistanceRaw wps)) ∧
      (calculateDistance wps).isNum = false) ∧
    (∀ x : ℝ, |toFixed2 x - x| ≤ 1 / 200) ∧
    (∀ wps : List Waypoint, wps.length ≤ 1 →
      calculateDistance wps = DistResult.num 0) := by
  refine ⟨?_, ?_, ?_⟩
  · intro wps hlen
    have h : calculateDistance wps =
        DistResult.str (toFixed2 (totalDistanceRaw wps)) := by
      rw [calculateDistance, if_neg (by omega)]
    exact ⟨h, by rw [h]; rfl⟩
  · intro x
    rw [toFixed2, abs_le]
    have h1 : ((⌊x * 100 + 1 / 2⌋ : ℤ) : ℝ) ≤ x * 100 + 1 / 2 :=
      Int.floor_le _
    have h2 : x * 100 + 1 / 2 < (⌊x * 100 + 1 / 2⌋ : ℤ) + 1 :=
      Int.lt_floor_add_one _
    constructor <;> linarith
  · intro wps hlen
    rw [calculateDistance, if_pos (by omega)]

/-- Witness for C9 at concrete lists and a concrete real. -/
theorem calculateDistance_formatting_witness :
    (calculateDistance [⟨1, 2⟩, ⟨3, 4⟩]).isNum = false ∧
    |toFixed2 (1 / 3 : ℝ) - (1 / 3 : ℝ)| ≤ 1 / 200 ∧
    calculateDistance [] = DistResult.num 0 :=
  ⟨(calculateDistance_formatting.1 [⟨1, 2⟩, ⟨3, 4⟩] (by norm_num)).2,
   calculateDistance_formatting.2.1 (1 / 3 : ℝ),
   calculateDistance_formatting.2.2 [] (by norm_num)⟩

end AdminDashboard
